import Mathlib

/-!
Verification of the audio-capture utility (src/src/main.py) against its
natural-language specification.  The Python source is shallowly embedded:
each pure fragment of the script becomes a Lean function over `String`,
`Int` and `Nat`; interaction with the operating system (prompt answers,
the subprocess result, the output file's state) is passed in explicitly
as arguments.  Python's arbitrary-precision integers are `Int`.
-/

/-! ## String primitives modelling the Python built-ins used by the script
(`str.strip`, `str.lower`, `int(...)`, `in`, `str.split(sep, 1)`).
Only ASCII text reaches these call sites, so case mapping and the
whitespace set are modelled at ASCII level. -/

/-- The whitespace characters `str.strip()` removes (ASCII part). -/
def isPySpace (c : Char) : Bool :=
  c = ' ' || c = '\t' || c = '\n' || c = '\r' || c = '\x0B' || c = '\x0C'

/-- Python `s.strip()`: drop whitespace from both ends. -/
def pyStrip (s : String) : String :=
  ⟨((s.toList.dropWhile isPySpace).reverse.dropWhile isPySpace).reverse⟩

/-- Python `s.lower()` (ASCII case mapping). -/
def pyLower (s : String) : String :=
  ⟨s.toList.map Char.toLower⟩

/-- Does `needle` occur at the head of `hay`? (helper for substring search) -/
def listLeads : List Char → List Char → Bool
  | [], _ => true
  | _ :: _, [] => false
  | a :: as, b :: bs => a = b && listLeads as bs

/-- Does `needle` occur anywhere in the character list? -/
def listHasSeg (needle : List Char) : List Char → Bool
  | [] => listLeads needle []
  | b :: bs => listLeads needle (b :: bs) || listHasSeg needle bs

/-- Python `needle in hay` on strings. -/
def strHasSub (hay needle : String) : Bool :=
  listHasSeg needle.toList hay.toList

/-- Python `s.endswith(suffix)`. -/
def strEndsWith (s sfx : String) : Bool :=
  listLeads sfx.toList.reverse s.toList.reverse

/-- Python `s.split(sep)` for a one-character separator: split on every
occurrence, keeping empty pieces (`"".split(sep)` is `[""]`). -/
def splitOnChar (sep : Char) : List Char → List (List Char)
  | [] => [[]]
  | c :: rest =>
    let r := splitOnChar sep rest
    if c = sep then [] :: r
    else
      match r with
      | [] => [[c]]
      | g :: gs => (c :: g) :: gs

/-- Python `s.split('\n')`. -/
def pySplitLines (s : String) : List String :=
  (splitOnChar '\n' s.toList).map (fun cs => ⟨cs⟩)

/-- The characters after the first occurrence of `sep` (everything when
`sep` does not occur — a branch unreachable at the call site, where
Python's `split(sep, 1)[1]` would raise instead). -/
def afterFirst (sep : Char) : List Char → List Char
  | [] => []
  | c :: rest => if c = sep then rest else afterFirst sep rest

/-- Numeric value of an ASCII digit. -/
def digitVal (c : Char) : Nat := c.toNat - 48

/-- Digits of an integer literal after the first one: Python `int` accepts
single underscores between digits (`1_0` parses, `1_` and `1__0` do not). -/
def usDigits : Nat → List Char → Option Nat
  | acc, [] => some acc
  | acc, c :: rest =>
    if c.isDigit then usDigits (acc * 10 + digitVal c) rest
    else if c = '_' then
      match rest with
      | [] => none
      | d :: _ => if d.isDigit then usDigits acc rest else none
    else none

/-- An unsigned decimal literal: at least one digit, underscores only
between digits. -/
def parseDigitsList : List Char → Option Nat
  | [] => none
  | c :: rest => if c.isDigit then usDigits (digitVal c) rest else none

/-- Python `int(s)` on a text string (ASCII model): surrounding whitespace
ignored, optional single sign, then a decimal literal; `none` models the
`ValueError` raised otherwise. -/
def pyParseInt (s : String) : Option Int :=
  match (pyStrip s).toList with
  | '+' :: rest => (parseDigitsList rest).map (fun n => (n : Int))
  | '-' :: rest => (parseDigitsList rest).map (fun n => -(n : Int))
  | cs => (parseDigitsList cs).map (fun n => (n : Int))

/-! ## Configuration constants of the script -/

def DEFAULT_OUTPUT_FILENAME : String := "recorded_audio_ffmpeg.mp3"
def DEFAULT_DURATION_HOURS : Int := 24
def DEFAULT_DURATION_MINUTES : Int := 0
def DEFAULT_DURATION_SECONDS : Int := 0
def AUDIO_SOURCE_FORMAT : String := "pulse"
def AUDIO_SOURCE_DEVICE : String := "alsa_output.pci-0000_03_00.6.analog-stereo.monitor"

/-! ## get_user_input: filename resolution (main.py lines 43-48) -/

/-- Lines 44-48: the prompt answer is stripped, a blank answer is replaced
by the default filename, and `.mp3` is appended unless the lowercased name
already ends with it. -/
def resolveFilename (filenameInput : String) : String :=
  let stripped := pyStrip filenameInput
  let filename := if stripped = "" then DEFAULT_OUTPUT_FILENAME else stripped
  if strEndsWith (pyLower filename) ".mp3" = true then filename
  else filename ++ ".mp3"

/-- Reference definition written from the spec's words (for claim C4): a
blank input resolves to the default filename, which already carries the
extension; an input lacking `.mp3` (checked case-insensitively) has it
appended exactly once; an input already bearing it is returned unchanged. -/
def specResolvedFilename (filenameInput : String) : String :=
  let stripped := pyStrip filenameInput
  if stripped = "" then DEFAULT_OUTPUT_FILENAME
  else if strEndsWith (pyLower stripped) ".mp3" = true then stripped
  else stripped ++ ".mp3"

/-! ## get_user_input: duration resolution (main.py lines 51-72) -/

/-- One duration component (lines 53, 56, 59): the stripped answer defaults
when blank, otherwise it is handed to `int(...)`; `none` is the
`ValueError` path. -/
def compInt (strippedInput : String) (d : Int) : Option Int :=
  if strippedInput = "" then some d else pyParseInt strippedInput

/-- Lines 51-72 of `get_user_input`.  A `ValueError` on `int(hours)` or
`int(minutes)` is caught at line 66 and the fallback is assigned, but the
summary print at line 72 then reads the never-assigned local `minutes`
(resp. `seconds`) and raises `UnboundLocalError`, crashing the run: that
path is `none`.  A `ValueError` on `int(seconds)` leaves all three names
bound, so the run continues with the fallback total.  When all three
components resolve, a non-positive sum is replaced by the fallback
(lines 63-65). -/
def resolveDuration (hoursInput minutesInput secondsInput : String) : Option Int :=
  match compInt (pyStrip hoursInput) DEFAULT_DURATION_HOURS with
  | none => none
  | some h =>
    match compInt (pyStrip minutesInput) DEFAULT_DURATION_MINUTES with
    | none => none
    | some m =>
      match compInt (pyStrip secondsInput) DEFAULT_DURATION_SECONDS with
      | none => some (24 * 3600)
      | some s =>
        if h * 3600 + m * 60 + s ≤ 0 then some (24 * 3600)
        else some (h * 3600 + m * 60 + s)

/-- The confirmation check (lines 76-77): the answer is stripped and
lowercased; a non-empty result whose first character is not `y` cancels
the run. -/
def confirmAborts (confirmInput : String) : Bool :=
  match (pyLower (pyStrip confirmInput)).toList with
  | [] => false
  | ch :: _ => ch != 'y'

/-- How a call to `get_user_input` ends.  `crashed` is the uncaught
`UnboundLocalError` described at `resolveDuration`; `aborted` is the
`exit(0)` at line 79 (a clean abort with success exit code, before any
recording is attempted); `ok` returns the resolved filename and total
duration in seconds. -/
inductive RunOutcome
  | crashed
  | aborted
  | ok (filename : String) (totalSeconds : Int)
  deriving DecidableEq, Repr

/-- `get_user_input` (lines 32-81) as a function of the five prompt
answers, in the order the script reads and acts on them. -/
def getUserInput (filenameInput hoursInput minutesInput secondsInput confirmInput : String) :
    RunOutcome :=
  let filename := resolveFilename filenameInput
  match resolveDuration hoursInput minutesInput secondsInput with
  | none => RunOutcome.crashed
  | some total =>
    if confirmAborts confirmInput = true then RunOutcome.aborted
    else RunOutcome.ok filename total

/-! ## detect_pulseaudio_monitor_source (main.py lines 178-212) -/

/-- Python `line.split(':', 1)[1]`: the text after the first colon. (At its
call site the line is guaranteed to contain a colon; a colon-free line gets
the empty string here, a branch the guard makes unreachable.) -/
def pyAfterColon (line : String) : String :=
  ⟨afterFirst ':' line.toList⟩

/-- Line 198's test: the stripped line starts with `Name:`. -/
def isNameLine (line : String) : Bool :=
  listLeads "Name:".toList (pyStrip line).toList

/-- Line 199: the name a `Name:` line carries, trimmed. -/
def nameOf (line : String) : String :=
  pyStrip (pyAfterColon line)

/-- Line 200's test on a non-`Name:` line: it contains `.monitor`. -/
def isMonLine (line : String) : Bool :=
  strHasSub line ".monitor"

/-- Python truthiness of `current_name` at line 200: bound to a non-empty
string (`none` is the initial `None`). -/
def isTruthy : Option String → Bool
  | none => false
  | some s => !(s = "")

/-- The scanning loop of lines 197-201: walk the lines keeping the most
recent `Name:` entry's name; every later non-`Name:` line containing
`.monitor` appends that name (while it stays current) to
`monitor_sources`. -/
def collectMonitorSources : List String → Option String → List String
  | [], _ => []
  | line :: rest, cur =>
    if isNameLine line = true then
      collectMonitorSources rest (some (nameOf line))
    else if isMonLine line = true ∧ isTruthy cur = true then
      cur.getD "" :: collectMonitorSources rest cur
    else
      collectMonitorSources rest cur

/-- The `monitor_sources` list the loop builds from the tool's stdout
(`result.stdout.split('\n')` at line 193, initial `current_name = None`). -/
def collectedNames (stdoutText : String) : List String :=
  collectMonitorSources (pySplitLines stdoutText) none

/-- Lines 203-209: prefer a collected name containing `monitor`, else the
first collected name, else nothing. -/
def detectFromOutput (stdoutText : String) : Option String :=
  match (collectedNames stdoutText).find? (fun s => strHasSub s "monitor") with
  | some s => some s
  | none => (collectedNames stdoutText).head?

/-- How the `subprocess.run(["pactl", "list", "sources"], ...)` call at
line 184 ends: the tool is absent (`FileNotFoundError` / `SubprocessError`,
line 211) or it ran with some return code and stdout. -/
inductive ProcResult
  | notFound
  | ran (returncode : Int) (stdoutText : String)
  deriving DecidableEq, Repr

/-- `detect_pulseaudio_monitor_source` (lines 178-212) as a function of the
listing tool's result: `None` on launch failure or non-zero exit, else the
parse of its stdout. -/
def detect_pulseaudio_monitor_source : ProcResult → Option String
  | ProcResult.notFound => none
  | ProcResult.ran rc out => if rc = 0 then detectFromOutput out else none

/-! ## record_audio_ffmpeg (main.py lines 94-176) -/

/-- The ffmpeg invocation built at lines 121-133, as the exact argument
list (`str(duration_seconds)` is decimal `toString`). -/
def buildFfmpegCommand (outputFilename : String) (durationSeconds : Int)
    (audioFormat audioDevice : String) : List String :=
  ["ffmpeg",
   "-y",
   "-f", audioFormat,
   "-i", audioDevice,
   "-t", toString durationSeconds,
   "-acodec", "libmp3lame",
   "-b:a", "192k",
   "-nostdin",
   "-nostats",
   "-loglevel", "warning",
   outputFilename]

/-- The outcome classes of lines 146-157: a completed recording, a soft
failure (exit 0 but the file is missing or empty; carries the captured
stderr it surfaces), or an encoder failure (non-zero exit; carries the
return code and stderr). -/
inductive RecordOutcome
  | completed
  | emptyOutput (stderrText : String)
  | encoderFailed (returncode : Int) (stderrText : String)
  deriving DecidableEq, Repr

/-- The classification of a natural encoder exit (lines 146-157), as a
function of the child's return code, whether the output file exists, its
size, and the captured stderr.  (`os.path.getsize` is only consulted when
the file exists, mirroring the short-circuit `and` at line 148.) -/
def classifyExit (returncode : Int) (fileExists : Bool) (fileSize : Nat)
    (stderrText : String) : RecordOutcome :=
  if returncode = 0 then
    if fileExists = true ∧ 0 < fileSize then RecordOutcome.completed
    else RecordOutcome.emptyOutput stderrText
  else RecordOutcome.encoderFailed returncode stderrText

/-! ## Declarative characterization of the scanning loop

`tailPattern lines` says some line containing `.monitor` occurs before any
`Name:` line; `monitorPattern lines` says some `Name:` entry with a
non-empty name is followed, before the next `Name:` entry, by a
non-`Name:` line containing `.monitor` — exactly the situations in which
the loop of lines 197-201 appends a name. -/

def tailPattern (lines : List String) : Prop :=
  ∃ mid monl post, lines = mid ++ monl :: post ∧
    (∀ l ∈ mid, isNameLine l = false) ∧
    isNameLine monl = false ∧ isMonLine monl = true

def monitorPattern (lines : List String) : Prop :=
  ∃ pre nm tl, lines = pre ++ nm :: tl ∧
    isNameLine nm = true ∧ nameOf nm ≠ "" ∧ tailPattern tl

/-- The invariant form of `monitorPattern` carrying the loop's running
`current_name`. -/
def curPattern (lines : List String) (cur : Option String) : Prop :=
  monitorPattern lines ∨ (isTruthy cur = true ∧ tailPattern lines)

theorem tailPattern_nil : ¬ tailPattern [] := by
  rintro ⟨mid, monl, post, heq, -, -, -⟩
  rcases mid with _ | ⟨m, mid'⟩ <;> simp at heq

theorem monitorPattern_nil : ¬ monitorPattern [] := by
  rintro ⟨pre, nm, tl, heq, -, -, -⟩
  rcases pre with _ | ⟨p, pre'⟩ <;> simp at heq

theorem tailPattern_cons (l : String) (rest : List String) :
    tailPattern (l :: rest) ↔
      (isNameLine l = false ∧ isMonLine l = true) ∨
      (isNameLine l = false ∧ tailPattern rest) := by
  constructor
  · rintro ⟨mid, monl, post, heq, hmid, hnm, hmon⟩
    cases mid with
    | nil =>
      simp only [List.nil_append, List.cons.injEq] at heq
      obtain ⟨h1, h2⟩ := heq
      subst h1
      exact Or.inl ⟨hnm, hmon⟩
    | cons m mid' =>
      simp only [List.cons_append, List.cons.injEq] at heq
      obtain ⟨h1, h2⟩ := heq
      subst h1
      refine Or.inr ⟨hmid l (by simp), mid', monl, post, h2, ?_, hnm, hmon⟩
      intro x hx
      exact hmid x (by simp [hx])
  · rintro (⟨h1, h2⟩ | ⟨h1, ⟨mid, monl, post, heq, hmid, hnm, hmon⟩⟩)
    · exact ⟨[], l, rest, rfl, by simp, h1, h2⟩
    · refine ⟨l :: mid, monl, post, by simp [heq], ?_, hnm, hmon⟩
      intro x hx
      rcases List.mem_cons.mp hx with hx | hx
      · exact hx ▸ h1
      · exact hmid x hx

theorem monitorPattern_cons (l : String) (rest : List String) :
    monitorPattern (l :: rest) ↔
      (isNameLine l = true ∧ nameOf l ≠ "" ∧ tailPattern rest) ∨ monitorPattern rest := by
  constructor
  · rintro ⟨pre, nm, tl, heq, hnm, hne, htl⟩
    cases pre with
    | nil =>
      simp only [List.nil_append, List.cons.injEq] at heq
      obtain ⟨h1, h2⟩ := heq
      subst h1
      exact Or.inl ⟨hnm, hne, h2 ▸ htl⟩
    | cons p pre' =>
      simp only [List.cons_append, List.cons.injEq] at heq
      obtain ⟨h1, h2⟩ := heq
      exact Or.inr ⟨pre', nm, tl, h2, hnm, hne, htl⟩
  · rintro (⟨h1, h2, h3⟩ | ⟨pre, nm, tl, heq, hnm, hne, htl⟩)
    · exact ⟨[], l, rest, rfl, h1, h2, h3⟩
    · exact ⟨l :: pre, nm, tl, by simp [heq], hnm, hne, htl⟩

theorem collect_cons_of_name (l : String) (rest : List String) (cur : Option String)
    (h1 : isNameLine l = true) :
    collectMonitorSources (l :: rest) cur = collectMonitorSources rest (some (nameOf l)) := by
  simp [collectMonitorSources, h1]

theorem collect_cons_of_mon (l : String) (rest : List String) (cur : Option String)
    (h1 : isNameLine l = false) (hmon : isMonLine l = true) (htr : isTruthy cur = true) :
    collectMonitorSources (l :: rest) cur = cur.getD "" :: collectMonitorSources rest cur := by
  simp [collectMonitorSources, h1, hmon, htr]

theorem collect_cons_of_skip (l : String) (rest : List String) (cur : Option String)
    (h1 : isNameLine l = false) (h2 : ¬(isMonLine l = true ∧ isTruthy cur = true)) :
    collectMonitorSources (l :: rest) cur = collectMonitorSources rest cur := by
  simp only [collectMonitorSources, h1, Bool.false_eq_true, if_false]
  rw [if_neg h2]

/-- The loop of lines 197-201 collects something exactly when the running
state admits the declarative pattern. -/
theorem collect_ne_nil_iff (lines : List String) :
    ∀ cur, collectMonitorSources lines cur ≠ [] ↔ curPattern lines cur := by
  induction lines with
  | nil =>
    intro cur
    constructor
    · intro h
      exact absurd (by simp [collectMonitorSources]) h
    · rintro (h | ⟨-, h⟩)
      · exact absurd h monitorPattern_nil
      · exact absurd h tailPattern_nil
  | cons l rest ih =>
    intro cur
    by_cases h1 : isNameLine l = true
    · rw [collect_cons_of_name l rest cur h1, ih (some (nameOf l))]
      unfold curPattern
      have htr : isTruthy (some (nameOf l)) = true ↔ nameOf l ≠ "" := by
        simp [isTruthy]
      constructor
      · rintro (hmp | ⟨ht, htl⟩)
        · exact Or.inl ((monitorPattern_cons l rest).mpr (Or.inr hmp))
        · exact Or.inl ((monitorPattern_cons l rest).mpr (Or.inl ⟨h1, htr.mp ht, htl⟩))
      · rintro (hmp | ⟨ht, htl⟩)
        · rcases (monitorPattern_cons l rest).mp hmp with ⟨-, hne, htl⟩ | hmp'
          · exact Or.inr ⟨htr.mpr hne, htl⟩
          · exact Or.inl hmp'
        · rcases (tailPattern_cons l rest).mp htl with ⟨hf, -⟩ | ⟨hf, -⟩ <;>
            simp [h1] at hf
    · have h1f : isNameLine l = false := by simpa using h1
      by_cases h2 : isMonLine l = true ∧ isTruthy cur = true
      · obtain ⟨hmon, htr⟩ := h2
        rw [collect_cons_of_mon l rest cur h1f hmon htr]
        unfold curPattern
        constructor
        · intro _
          exact Or.inr ⟨htr, (tailPattern_cons l rest).mpr (Or.inl ⟨h1f, hmon⟩)⟩
        · intro _
          simp
      · rw [collect_cons_of_skip l rest cur h1f h2, ih cur]
        unfold curPattern
        constructor
        · rintro (hmp | ⟨ht, htl⟩)
          · exact Or.inl ((monitorPattern_cons l rest).mpr (Or.inr hmp))
          · exact Or.inr ⟨ht, (tailPattern_cons l rest).mpr (Or.inr ⟨h1f, htl⟩)⟩
        · rintro (hmp | ⟨ht, htl⟩)
          · rcases (monitorPattern_cons l rest).mp hmp with ⟨hN, -, -⟩ | hmp'
            · simp [h1f] at hN
            · exact Or.inl hmp'
          · rcases (tailPattern_cons l rest).mp htl with ⟨-, hmon⟩ | ⟨-, htl'⟩
            · exact absurd ⟨hmon, ht⟩ h2
            · exact Or.inr ⟨ht, htl'⟩

/-- Every name the loop collects is the trimmed text after the first colon
of some `Name:` line of the input (or was already the running state), and
is non-empty. -/
theorem mem_collectMonitorSources (lines : List String) :
    ∀ (cur : Option String) (s : String), s ∈ collectMonitorSources lines cur →
      (∃ l ∈ lines, isNameLine l = true ∧ nameOf l = s ∧ s ≠ "") ∨
      (cur = some s ∧ s ≠ "") := by
  induction lines with
  | nil =>
    intro cur s h
    simp [collectMonitorSources] at h
  | cons l rest ih =>
    intro cur s h
    by_cases h1 : isNameLine l = true
    · rw [collect_cons_of_name l rest cur h1] at h
      rcases ih (some (nameOf l)) s h with ⟨l', hl', hx⟩ | ⟨hc, hne⟩
      · exact Or.inl ⟨l', List.mem_cons_of_mem l hl', hx⟩
      · have : nameOf l = s := Option.some.inj hc
        exact Or.inl ⟨l, List.mem_cons_self l rest, h1, this, hne⟩
    · have h1f : isNameLine l = false := by simpa using h1
      by_cases h2 : isMonLine l = true ∧ isTruthy cur = true
      · obtain ⟨hmon, htr⟩ := h2
        rw [collect_cons_of_mon l rest cur h1f hmon htr] at h
        rcases List.mem_cons.mp h with heq | hmem
        · cases cur with
          | none => simp [isTruthy] at htr
          | some nm =>
            have hne : nm ≠ "" := by simpa [isTruthy] using htr
            refine Or.inr ⟨?_, heq ▸ hne⟩
            simp [heq, Option.getD]
        · rcases ih cur s hmem with ⟨l', hl', hx⟩ | hx
          · exact Or.inl ⟨l', List.mem_cons_of_mem l hl', hx⟩
          · exact Or.inr hx
      · rw [collect_cons_of_skip l rest cur h1f h2] at h
        rcases ih cur s h with ⟨l', hl', hx⟩ | hx
        · exact Or.inl ⟨l', List.mem_cons_of_mem l hl', hx⟩
        · exact Or.inr hx

/-- With the loop's initial `current_name = None`, names are collected
exactly when the stdout text contains the monitor pattern. -/
theorem collectedNames_ne_nil_iff (stdoutText : String) :
    collectedNames stdoutText ≠ [] ↔ monitorPattern (pySplitLines stdoutText) := by
  unfold collectedNames
  rw [collect_ne_nil_iff]
  unfold curPattern
  simp [isTruthy]

/-- Lines 203-209 return nothing exactly when the loop collected nothing. -/
theorem detectFromOutput_eq_none_iff (stdoutText : String) :
    detectFromOutput stdoutText = none ↔ collectedNames stdoutText = [] := by
  unfold detectFromOutput
  cases hms : collectedNames stdoutText with
  | nil => simp
  | cons a t =>
    cases hf : (a :: t).find? (fun s => strHasSub s "monitor") with
    | none => simp
    | some s => simp

/-- Whatever lines 203-209 return was collected by the loop. -/
theorem detectFromOutput_some_mem (stdoutText s : String)
    (h : detectFromOutput stdoutText = some s) : s ∈ collectedNames stdoutText := by
  unfold detectFromOutput at h
  cases hf : (collectedNames stdoutText).find? (fun x => strHasSub x "monitor") with
  | some u =>
    rw [hf] at h
    have hs : u = s := Option.some.inj h
    exact hs ▸ List.mem_of_find?_eq_some hf
  | none =>
    rw [hf] at h
    cases hms : collectedNames stdoutText with
    | nil => rw [hms] at h; simp at h
    | cons a t =>
      rw [hms] at h
      have hs : a = s := Option.some.inj h
      exact hs ▸ List.mem_cons_self a t

/-- The preference of lines 204-206: if any collected name contains
`monitor`, the returned one does. -/
theorem detectFromOutput_prefers_monitor (stdoutText s : String)
    (h : detectFromOutput stdoutText = some s)
    (t : String) (ht : t ∈ collectedNames stdoutText)
    (htm : strHasSub t "monitor" = true) : strHasSub s "monitor" = true := by
  unfold detectFromOutput at h
  cases hf : (collectedNames stdoutText).find? (fun x => strHasSub x "monitor") with
  | some u =>
    rw [hf] at h
    have hs : u = s := Option.some.inj h
    have := List.find?_some hf
    simpa [hs] using this
  | none =>
    have := List.find?_eq_none.mp hf t ht
    simp [htm] at this

/-! ## Claim theorems -/

/-- C4: for every filename input, the resolved filename equals the
reference definition written from the spec's words: a blank input
resolves to the default filename (which already carries the extension),
an input lacking `.mp3` (case-insensitively) has it appended exactly
once, and an input already bearing it in any letter case is returned
unchanged. -/
theorem resolveFilename_matches_spec (filenameInput : String) :
    resolveFilename filenameInput = specResolvedFilename filenameInput := by
  unfold resolveFilename specResolvedFilename
  by_cases h : pyStrip filenameInput = ""
  · simp [h]
    decide
  · simp [h]

/-- C5: for every duration triple whose three components all parse as
integers, the resolved total duration is the sum
`hours*3600 + minutes*60 + seconds` when that sum is positive, and the
fallback `24*3600` when the sum is zero or negative. -/
theorem resolveDuration_of_parsed (hoursInput minutesInput secondsInput : String)
    (h m s : Int)
    (hh : pyParseInt (pyStrip hoursInput) = some h)
    (hm : pyParseInt (pyStrip minutesInput) = some m)
    (hs : pyParseInt (pyStrip secondsInput) = some s) :
    resolveDuration hoursInput minutesInput secondsInput =
      some (if 0 < h * 3600 + m * 60 + s then h * 3600 + m * 60 + s
            else 24 * 3600) := by
  have hnone : pyParseInt "" = none := rfl
  have hne1 : pyStrip hoursInput ≠ "" := by
    intro he; rw [he, hnone] at hh; exact Option.noConfusion hh
  have hne2 : pyStrip minutesInput ≠ "" := by
    intro he; rw [he, hnone] at hm; exact Option.noConfusion hm
  have hne3 : pyStrip secondsInput ≠ "" := by
    intro he; rw [he, hnone] at hs; exact Option.noConfusion hs
  unfold resolveDuration compInt
  rw [if_neg hne1, hh, if_neg hne2, hm, if_neg hne3, hs]
  by_cases hle : h * 3600 + m * 60 + s ≤ 0
  · simp only [if_pos hle, if_neg (by omega : ¬ 0 < h * 3600 + m * 60 + s)]
  · simp only [if_neg hle, if_pos (by omega : 0 < h * 3600 + m * 60 + s)]

/-- Witness for C5 at the triple ("1", "2", "3"). -/
theorem resolveDuration_of_parsed_w :
    resolveDuration "1" "2" "3" =
      some (if 0 < (1 : Int) * 3600 + 2 * 60 + 3 then (1 : Int) * 3600 + 2 * 60 + 3
            else 24 * 3600) :=
  resolveDuration_of_parsed "1" "2" "3" 1 2 3 (by decide) (by decide) (by decide)

/-- Every duration `resolveDuration` actually produces is at least one
second (helper for C9). -/
theorem resolveDuration_pos (hoursInput minutesInput secondsInput : String) (t : Int)
    (h : resolveDuration hoursInput minutesInput secondsInput = some t) : 1 ≤ t := by
  unfold resolveDuration at h
  split at h
  · exact Option.noConfusion h
  · split at h
    · exact Option.noConfusion h
    · split at h
      · have := Option.some.inj h
        omega
      · split at h
        · have := Option.some.inj h
          omega
        · have := Option.some.inj h
          omega

/-- C9: on every duration input on which `get_user_input` returns, the
resolved total duration is strictly positive (at least one second): every
resolution path yields either a parsed sum already greater than zero or
the fallback `24*3600`, so a non-positive duration never reaches the
recording controller. -/
theorem getUserInput_positive_duration
    (filenameInput hoursInput minutesInput secondsInput confirmInput fn : String) (t : Int)
    (h : getUserInput filenameInput hoursInput minutesInput secondsInput confirmInput =
      RunOutcome.ok fn t) : 1 ≤ t := by
  unfold getUserInput at h
  split at h
  · exact RunOutcome.noConfusion h
  · rename_i total hres
    split at h
    · exact RunOutcome.noConfusion h
    · have ht : total = t := by
        injection h with h1 h2
      exact ht ▸ resolveDuration_pos hoursInput minutesInput secondsInput total hres

/-- Witness for C9: on the all-blank input the call returns with the
fallback total 86400, which is at least one second. -/
theorem getUserInput_positive_duration_w : (1 : Int) ≤ 86400 :=
  getUserInput_positive_duration "" "" "" "" "" "recorded_audio_ffmpeg.mp3" 86400 (by decide)

/-- C1 (code bug): a non-numeric hours or minutes component does not
recover with the fallback — the `ValueError` handler assigns the fallback
and prints the warning, but the config-summary print then reads a local
variable the aborted `try` block never assigned, raising an uncaught
`UnboundLocalError` (modelled as `RunOutcome.crashed` / `none`).  Only a
non-numeric seconds component recovers with the fallback `24*3600` as the
claim states. -/
theorem getUserInput_nonnumeric_component :
    getUserInput "" "abc" "0" "0" "y" = RunOutcome.crashed
    ∧ resolveDuration "abc" "0" "0" = none
    ∧ resolveDuration "0" "abc" "0" = none
    ∧ resolveDuration "0" "0" "abc" = some (24 * 3600) := by
  decide

/-- Counterexample to C2: the empty confirmation response is falsy in
Python, so the `confirm and confirm[0] != 'y'` guard does not fire — the
run proceeds to recording instead of aborting. -/
theorem getUserInput_empty_confirm_proceeds :
    getUserInput "" "1" "0" "0" "" ≠ RunOutcome.aborted
    ∧ getUserInput "" "1" "0" "0" "" = RunOutcome.ok "recorded_audio_ffmpeg.mp3" 3600 := by
  decide

/-- C2 as amended: every confirmation response that is non-empty after
trimming and whose leading character, lowercased, is not `y` makes
`get_user_input` abort the run cleanly (the `exit(0)` of line 79: success
exit code, no recording attempted); the empty or whitespace-only response
is treated as affirmative and proceeds. -/
theorem getUserInput_aborts_on_nonaffirmative
    (filenameInput hoursInput minutesInput secondsInput confirmInput : String)
    (t : Int) (ch : Char) (cl : List Char)
    (hdur : resolveDuration hoursInput minutesInput secondsInput = some t)
    (hcl : (pyLower (pyStrip confirmInput)).toList = ch :: cl)
    (hy : ch ≠ 'y') :
    getUserInput filenameInput hoursInput minutesInput secondsInput confirmInput =
      RunOutcome.aborted := by
  have hab : confirmAborts confirmInput = true := by
    unfold confirmAborts
    rw [hcl]
    simpa using hy
  unfold getUserInput
  rw [hdur]
  simp [hab]

/-- Witness for C2's amended theorem at the response "n". -/
theorem getUserInput_aborts_on_nonaffirmative_w :
    getUserInput "" "1" "0" "0" "n" = RunOutcome.aborted :=
  getUserInput_aborts_on_nonaffirmative "" "1" "0" "0" "n" 3600 'n' []
    (by decide) (by decide) (by decide)

/-- Counterexample to C3: with the tool present and exiting 0, a non-empty
source listing with no `.monitor` line makes detection return nothing
(the first conjunct: the listed source `foo` is not returned), and when no
name matches the monitor marker the fallback is the first *collected*
name, not the first *listed* source (the second conjunct: `a` is listed
first but `b` is returned). -/
theorem detect_first_listed_counterexample :
    detect_pulseaudio_monitor_source (ProcResult.ran 0 "Name: foo\nDescription: bar") = none
    ∧ detect_pulseaudio_monitor_source (ProcResult.ran 0 "Name: a\nName: b\nx.monitor") =
        some "b" := by
  decide

/-- C3 as amended: detection considers only the collected names (sources
whose `Name:` entry is followed, while still current, by a `.monitor`
line); when none of the collected names contains `monitor` it returns the
first collected name (`head?`), and it returns nothing exactly when the
tool is absent, the tool fails with non-zero exit, or the collected list
is empty — which can happen even when the source listing is non-empty. -/
theorem detect_fallback_and_none_cases :
    detect_pulseaudio_monitor_source ProcResult.notFound = none
    ∧ (∀ rc out, rc ≠ 0 →
        detect_pulseaudio_monitor_source (ProcResult.ran rc out) = none)
    ∧ (∀ out, detect_pulseaudio_monitor_source (ProcResult.ran 0 out) = none ↔
        collectedNames out = [])
    ∧ (∀ out, (∀ s ∈ collectedNames out, strHasSub s "monitor" = false) →
        detect_pulseaudio_monitor_source (ProcResult.ran 0 out) =
          (collectedNames out).head?) := by
  refine ⟨rfl, ?_, ?_, ?_⟩
  · intro rc out hrc
    show (if rc = 0 then detectFromOutput out else none) = none
    rw [if_neg hrc]
  · intro out
    show (if (0 : Int) = 0 then detectFromOutput out else none) = none ↔
      collectedNames out = []
    rw [if_pos rfl]
    exact detectFromOutput_eq_none_iff out
  · intro out hall
    show (if (0 : Int) = 0 then detectFromOutput out else none) = (collectedNames out).head?
    rw [if_pos rfl]
    unfold detectFromOutput
    have hf : (collectedNames out).find? (fun s => strHasSub s "monitor") = none := by
      apply List.find?_eq_none.mpr
      intro x hx
      simp [hall x hx]
    rw [hf]

/-- Witness for C3's amended theorem: a failing tool yields nothing, and a
listing whose sole collected name lacks the `monitor` substring falls back
to the head of the collected list. -/
theorem detect_fallback_and_none_cases_w :
    detect_pulseaudio_monitor_source (ProcResult.ran 1 "") = none
    ∧ detect_pulseaudio_monitor_source (ProcResult.ran 0 "Name: a\nx.monitor") =
        (collectedNames "Name: a\nx.monitor").head? :=
  ⟨detect_fallback_and_none_cases.2.1 1 "" (by decide),
   detect_fallback_and_none_cases.2.2.2 "Name: a\nx.monitor" (by decide)⟩

/-- Counterexample to C6: the first `Name:` entry followed by a `.monitor`
line is `a`, but detection returns `bmonitor` — a later entry whose name
contains `monitor` is preferred over the first match. -/
theorem detectFromOutput_counterexample :
    detectFromOutput "Name: a\n.monitor\nName: bmonitor\n.monitor" = some "bmonitor"
    ∧ detectFromOutput "Name: a\n.monitor\nName: bmonitor\n.monitor" ≠ some "a" := by
  decide

/-- C6 as amended: detection returns nothing exactly when the listing text
contains no `Name:` entry (with a non-empty name) followed, before any
subsequent `Name:` line, by a non-`Name:` line containing `.monitor`; and
whenever it returns a value, that value is one of the collected entry
names, preferring a name that contains `monitor` over the first match. -/
theorem detectFromOutput_characterized (stdoutText : String) :
    (detectFromOutput stdoutText = none ↔ ¬ monitorPattern (pySplitLines stdoutText))
    ∧ (∀ s, detectFromOutput stdoutText = some s →
        s ∈ collectedNames stdoutText ∧
        ∀ t ∈ collectedNames stdoutText, strHasSub t "monitor" = true →
          strHasSub s "monitor" = true) := by
  have h1 := collectedNames_ne_nil_iff stdoutText
  constructor
  · rw [detectFromOutput_eq_none_iff]
    constructor
    · intro h hmp
      exact (h1.mpr hmp) h
    · intro hnm
      by_contra hne
      exact hnm (h1.mp hne)
  · intro s hs
    exact ⟨detectFromOutput_some_mem stdoutText s hs,
      fun t ht htm => detectFromOutput_prefers_monitor stdoutText s hs t ht htm⟩

/-- Witness for C6's amended theorem: on a one-entry listing the returned
value is the collected name `a`. -/
theorem detectFromOutput_characterized_w :
    "a" ∈ collectedNames "Name: a\nx.monitor"
    ∧ detectFromOutput "Name: a\nx.monitor" = some "a" :=
  ⟨((detectFromOutput_characterized "Name: a\nx.monitor").2 "a" (by decide)).1,
   by decide⟩

/-- C7: on a natural encoder exit with status 0 the outcome is classified
`completed` exactly when the output file exists with non-zero size, and
otherwise as the soft failure `emptyOutput` carrying (surfacing) the
captured stderr. -/
theorem classifyExit_zero_characterized (fileExists : Bool) (fileSize : Nat)
    (stderrText : String) :
    classifyExit 0 fileExists fileSize stderrText =
      if fileExists = true ∧ 0 < fileSize then RecordOutcome.completed
      else RecordOutcome.emptyOutput stderrText := by
  unfold classifyExit
  rw [if_pos rfl]

/-- C8: for every resolved configuration the constructed encoder
invocation is exactly the fixed argument shape — overwrite flag,
`-f <sourceFormat>`, `-i <sourceDevice>`, `-t <durationSeconds>`, the
`libmp3lame` codec, 192 kbit/s bitrate, stdin disabled, progress
statistics disabled, warnings-only log level — with the output path as
the last positional argument. -/
theorem buildFfmpegCommand_shape (outputFilename : String) (durationSeconds : Int)
    (audioFormat audioDevice : String) :
    buildFfmpegCommand outputFilename durationSeconds audioFormat audioDevice =
      ["ffmpeg", "-y", "-f", audioFormat, "-i", audioDevice,
       "-t", toString durationSeconds, "-acodec", "libmp3lame", "-b:a", "192k",
       "-nostdin", "-nostats", "-loglevel", "warning"] ++ [outputFilename] := rfl

/-- C10: whenever monitor-source detection returns a value, the tool ran,
and the value is a non-empty string equal to the trimmed text after the
first colon of some line of the tool's output that starts (after
trimming) with `Name:` — never the empty string, never a fabricated
name. -/
theorem detect_returns_listed_name (r : ProcResult) (s : String)
    (h : detect_pulseaudio_monitor_source r = some s) :
    s ≠ "" ∧ ∃ rc out, r = ProcResult.ran rc out ∧
      ∃ l ∈ pySplitLines out, isNameLine l = true ∧ nameOf l = s := by
  cases r with
  | notFound => exact Option.noConfusion h
  | ran rc out =>
    replace h : (if rc = 0 then detectFromOutput out else none) = some s := h
    by_cases hrc : rc = 0
    · rw [if_pos hrc] at h
      have hmem := detectFromOutput_some_mem out s h
      rcases mem_collectMonitorSources (pySplitLines out) none s hmem with
        ⟨l, hl, hx1, hx2, hx3⟩ | ⟨hc, -⟩
      · exact ⟨hx3, rc, out, rfl, l, hl, hx1, hx2⟩
      · exact Option.noConfusion hc
    · rw [if_neg hrc] at h
      exact Option.noConfusion h

/-- Witness for C10 on a concrete listing: the returned name `a` is the
trimmed text after the colon of the line `Name: a`. -/
theorem detect_returns_listed_name_w :
    "a" ≠ "" ∧ ∃ rc out, ProcResult.ran 0 "Name: a\nx.monitor" = ProcResult.ran rc out ∧
      ∃ l ∈ pySplitLines out, isNameLine l = true ∧ nameOf l = "a" :=
  detect_returns_listed_name (ProcResult.ran 0 "Name: a\nx.monitor") "a" (by decide)
